import Mathlib

/-!
# Verification of the claim-verification pipeline (StrawHats_KDSH_2026)

Shallow embedding of the core pipeline stages of the repository:

- `chunkText`            — src/agents/ingestion_agent.py, `chunk_text`
- `retrieveEvidence`     — src/agents/retriever_agent.py, `retrieve_evidence`
- `retrieverMain`        — src/agents/retriever_agent.py, `main` (load + per-claim loop)
- `callClaudeWithRetry`  — src/agents/reasoning_agent.py, `call_claude_with_retry`
- `callOllama`           — src/agents/reasoning_agent_local.py, `call_ollama`
- `createErrorVerdict`   — src/agents/reasoning_agent.py / reasoning_agent_local.py,
                           `create_error_verdict` (identical in both files)
- `runResolverMain`      — src/agents/reasoning_agent.py, `main` (skip / persist logic)
- `mkRow`, `VERDICT_MAP` — src/agents/results_aggregator.py

External libraries (tiktoken, faiss, the HTTP clients, json) are modelled at their
boundary: tokenizers are a pair of a token list and a decode function, the FAISS
search result is a list of (score, index) pairs, and a backend reply carries the
result of parsing its body (an optional JSON value).  Python floats are modelled
as exact rationals, Python ints as Lean Int/Nat.
-/

namespace StrawHats

/-- A parsed JSON value, as produced by Python json.loads.  Objects are modelled
as ordered association lists, matching insertion-ordered Python dicts. -/
inductive Json where
  | null
  | bool (b : Bool)
  | num (q : ℚ)
  | str (s : String)
  | arr (elems : List Json)
  | obj (fields : List (String × Json))

/-- Python dict assignment d[k] = v on an insertion-ordered dict: replace the
value at the first occurrence of k, or append (k, v) at the end. -/
def setKey : List (String × Json) → String → Json → List (String × Json)
  | [], k, v => [(k, v)]
  | (k', v') :: rest, k, v =>
      if k' = k then (k, v) :: rest else (k', v') :: setKey rest k v

/-- Python membership test followed by d[k] = v only when k is absent
(the backfill pattern of call_ollama). -/
def setIfMissing (fields : List (String × Json)) (k : String) (v : Json) :
    List (String × Json) :=
  if (fields.lookup k).isSome then fields else fields ++ [(k, v)]

/-- Field access on a JSON value: some value when it is an object containing
the key, none otherwise. -/
def fieldOf (j : Json) (k : String) : Option Json :=
  match j with
  | .obj fields => fields.lookup k
  | _ => none

/-! ## Verdict Resolver — src/agents/reasoning_agent.py -/

/-- create_error_verdict (reasoning_agent.py lines 213-222; the local agent has
the identical function at lines 170-179). -/
def createErrorVerdict (claimId : String) (errorMessage : String) : Json :=
  Json.obj [
    ("claim_id", .str claimId),
    ("verdict", .str "undetermined"),
    ("confidence", .num 0),
    ("supporting_spans", .arr []),
    ("contradicting_spans", .arr []),
    ("reasoning", .str errorMessage)
  ]

/-- MAX_RETRIES (reasoning_agent.py line 46). -/
def MAX_RETRIES : Nat := 5

/-- Outcome of one attempt of the hosted backend call, at the library boundary.
For a delivered response, parsed is the result of json.loads applied to the
stripped response text (none on JSONDecodeError, with its str(e) as parseErrMsg).
The msg arguments carry str(e) of the raised exception. -/
inductive Outcome where
  | rateLimit (msg : String)
  | connError (msg : String)
  | apiError (status : Nat) (msg : String)
  | response (parsed : Option Json) (parseErrMsg : String)
  | exn (msg : String)

/-- An outcome the retry loop treats as transient: rate limit, connection
error, or an APIError with a 5xx status_code. -/
def Outcome.isTransient : Outcome → Bool
  | .rateLimit _ => true
  | .connError _ => true
  | .apiError status _ => 500 ≤ status && status < 600
  | _ => false

/-- The body of call_claude_with_retry (reasoning_agent.py lines 148-210).
outcomes gives the backend behaviour of each attempt; fuel counts the
remaining iterations of the for-attempt-in-range(MAX_RETRIES) loop, attempt is
the current attempt number, lastErr the running str(last_error).  Returns the
verdict together with the number of backend calls issued. -/
def callClaudeAux (claimId : String) (outcomes : Nat → Outcome) :
    Nat → Nat → String → Json × Nat
  | 0, attempt, lastErr =>
      (createErrorVerdict claimId ("Max retries exceeded: " ++ lastErr), attempt)
  | fuel + 1, attempt, _lastErr =>
      match outcomes attempt with
      | .response (some parsed) _ =>
          match parsed with
          | .obj fields =>
              (Json.obj (setKey fields "claim_id" (.str claimId)), attempt + 1)
          | _ =>
              -- verdict["claim_id"] = claim_id on a non-dict raises TypeError,
              -- caught by the final except Exception branch
              (createErrorVerdict claimId
                ("Unexpected error: value does not support item assignment"),
               attempt + 1)
      | .response none parseErrMsg =>
          (createErrorVerdict claimId
            ("Failed to parse model response: " ++ parseErrMsg), attempt + 1)
      | .rateLimit msg => callClaudeAux claimId outcomes fuel (attempt + 1) msg
      | .connError msg => callClaudeAux claimId outcomes fuel (attempt + 1) msg
      | .apiError status msg =>
          if 500 ≤ status && status < 600 then
            callClaudeAux claimId outcomes fuel (attempt + 1) msg
          else
            (createErrorVerdict claimId ("API error: " ++ msg), attempt + 1)
      | .exn msg =>
          (createErrorVerdict claimId ("Unexpected error: " ++ msg), attempt + 1)

/-- call_claude_with_retry (reasoning_agent.py lines 134-210): the retry loop
started with attempt 0 and last_error = None. -/
def callClaudeWithRetry (claimId : String) (outcomes : Nat → Outcome) : Json × Nat :=
  callClaudeAux claimId outcomes MAX_RETRIES 0 "None"

/-! ## Local Verdict Resolver — src/agents/reasoning_agent_local.py -/

/-- Outcome of the single Ollama HTTP call, at the requests-library boundary.
For a delivered response, status is the HTTP status code and parsed the result
of json.loads on the fence-stripped response text (none on JSONDecodeError). -/
inductive OllamaOutcome where
  | connError
  | timeout
  | httpResponse (status : Nat) (parsed : Option Json) (parseErrMsg : String)
  | exn (msg : String)

/-- call_ollama (reasoning_agent_local.py lines 99-167): single-shot call,
non-200 status and every exception produce an error verdict; a parsed object
gets claim_id forced and the four optional fields backfilled in order. -/
def callOllama (claimId : String) (outcome : OllamaOutcome) : Json :=
  match outcome with
  | .httpResponse status parsed parseErrMsg =>
      if status ≠ 200 then
        createErrorVerdict claimId ("Ollama error: " ++ toString status)
      else
        match parsed with
        | some (.obj fields) =>
            let f0 := setKey fields "claim_id" (.str claimId)
            let f1 := setIfMissing f0 "supporting_spans" (.arr [])
            let f2 := setIfMissing f1 "contradicting_spans" (.arr [])
            let f3 := setIfMissing f2 "confidence" (.num (1/2))
            let f4 := setIfMissing f3 "reasoning" (.str "Local model inference")
            Json.obj f4
        | some _ =>
            -- verdict["claim_id"] = claim_id on a non-dict raises TypeError,
            -- caught by the final except Exception branch
            createErrorVerdict claimId
              ("Error: value does not support item assignment")
        | none =>
            createErrorVerdict claimId ("JSON parse error: " ++ parseErrMsg)
  | .connError =>
      createErrorVerdict claimId "Ollama not running. Start with: ollama serve"
  | .timeout =>
      createErrorVerdict claimId "Ollama timeout - model may be too slow"
  | .exn msg => createErrorVerdict claimId ("Error: " ++ msg)

/-! ## Segmenter — src/agents/ingestion_agent.py -/

/-- One chunk record produced by chunk_text (ingestion_agent.py lines 61-67).
Text is kept as a character list; char positions are Python ints. -/
structure Chunk where
  chunk_idx : Nat
  char_start : Int
  char_end : Int
  text : List Char
  token_count : Nat
deriving DecidableEq, Repr

/-- Python str.find(sub, start): smallest index i with start ≤ i at which sub
occurs in text, or -1 when there is none. -/
def pyFind (text sub : List Char) (start : Nat) : Int :=
  match (List.range (text.length + 1)).find?
      (fun i => decide (start ≤ i) && sub.isPrefixOf (text.drop i)) with
  | some i => (i : Int)
  | none => -1

/-- The while loop of chunk_text (ingestion_agent.py lines 37-75), one
constructor case per iteration.  tokens and decode model the tiktoken
encoding object: tokens = encoding.encode(text), decode slices back to text.
fuel bounds the iteration count (the stride chunkSize - overlap is positive
for every call in the repository, so the fuel tokens.length + 1 is never
exhausted); acc holds the chunks list built so far. -/
def chunkTextAux {τ : Type} (tokens : List τ) (decode : List τ → List Char)
    (text : List Char) (chunkSize overlap : Nat) :
    Nat → Nat → Nat → List Chunk → List Chunk
  | 0, _, _, acc => acc
  | fuel + 1, tokenIdx, chunkIdx, acc =>
      if tokenIdx < tokens.length then
        let endIdx := min (tokenIdx + chunkSize) tokens.length
        let chunkTokens := (tokens.drop tokenIdx).take (endIdx - tokenIdx)
        let ctext := decode chunkTokens
        let charStart : Int :=
          if chunkIdx = 0 then 0
          else
            -- chunks[-1]; the list is non-empty whenever chunkIdx > 0
            let prevEnd : Int := ((acc.getLast?).map (·.char_end)).getD 0
            let overlapTokens :=
              (tokens.drop (tokenIdx - overlap)).take (tokenIdx - (tokenIdx - overlap))
            let overlapText := decode overlapTokens
            let searchStart : Int := prevEnd - overlapText.length - 100
            let found := pyFind text (ctext.take 100) (max 0 searchStart).toNat
            if found = -1 then prevEnd else found
        let charEnd : Int := charStart + ctext.length
        let acc' := acc ++ [{ chunk_idx := chunkIdx, char_start := charStart,
                              char_end := charEnd, text := ctext,
                              token_count := chunkTokens.length }]
        if tokens.length ≤ endIdx then acc'
        else chunkTextAux tokens decode text chunkSize overlap fuel
              (tokenIdx + (chunkSize - overlap)) (chunkIdx + 1) acc'
      else acc

/-- chunk_text (ingestion_agent.py lines 26-77). -/
def chunkText {τ : Type} (tokens : List τ) (decode : List τ → List Char)
    (text : List Char) (chunkSize overlap : Nat) : List Chunk :=
  chunkTextAux tokens decode text chunkSize overlap (tokens.length + 1) 0 0 []

/-! ## Evidence Retriever — src/agents/retriever_agent.py -/

/-- One metadata record of index/meta.pkl (embedding_agent.py create_metadata). -/
structure Meta where
  book : String
  chunk_idx : Nat
  char_start : Int
  char_end : Int
  text : String
deriving DecidableEq, Repr

/-- One entry of the results list of retrieve_evidence (retriever_agent.py
lines 80-88).  score is the boosted (adjusted) score; pos records the position
of the entry in the results list before sorting, i.e. the insertion order. -/
structure EvidenceItem where
  chunk_idx : Nat
  book : String
  char_start : Int
  char_end : Int
  text : String
  score : ℚ
  is_same_book : Bool
  pos : Nat
deriving DecidableEq, Repr

/-- The original pre-boost similarity score of an item: its adjusted score
minus the same-book boost it received. -/
def EvidenceItem.rawScore (e : EvidenceItem) : ℚ :=
  e.score - (if e.is_same_book then 1/5 else 0)

/-- book.lower().replace(" ", "").replace("_", "") (retriever_agent.py
lines 66 and 75), as a character list.  Lower-casing is per character; the
book names of this repository are ASCII, where this agrees with str.lower. -/
def normBook (s : String) : List Char :=
  (s.toList.map Char.toLower).filter (fun c => !(c = ' ' || c = '_'))

/-- Python substring containment a in b. -/
def strContains (b a : List Char) : Bool :=
  (List.range (b.length + 1)).any (fun i => a.isPrefixOf (b.drop i))

/-- Decidable equality for Except values, to evaluate concrete runs. -/
instance {ε α : Type} [DecidableEq ε] [DecidableEq α] : DecidableEq (Except ε α) :=
  fun a b =>
    match a, b with
    | .ok x, .ok y => if h : x = y then .isTrue (by rw [h]) else .isFalse (by simp [h])
    | .error x, .error y => if h : x = y then .isTrue (by rw [h]) else .isFalse (by simp [h])
    | .ok _, .error _ => .isFalse (by simp)
    | .error _, .ok _ => .isFalse (by simp)

/-- Python list indexing lst[i]: negative indices count from the end, out of
range raises IndexError. -/
def pyGet {α : Type} (l : List α) (i : Int) : Except String α :=
  let j : Int := if i < 0 then (l.length : Int) + i else i
  if j < 0 then .error "IndexError: list index out of range"
  else
    match l.get? j.toNat with
    | some a => .ok a
    | none => .error "IndexError: list index out of range"

/-- TOP_K and FINAL_K (retriever_agent.py lines 21-22). -/
def TOP_K : Nat := 6

def FINAL_K : Nat := 3

/-- The result-building loop of retrieve_evidence (retriever_agent.py lines
68-88): walk the (score, idx) pairs returned by index.search, skip the -1
sentinel, look the metadata record up by position (IndexError propagates),
boost the score by 0.2 when the normalized book names contain one another.
pos numbers the entries of the results list in order. -/
def buildResults (bookNameLower : List Char) (metadata : List Meta) :
    List (ℚ × Int) → Nat → Except String (List EvidenceItem)
  | [], _ => .ok []
  | (score, idx) :: rest, pos =>
      if idx = -1 then buildResults bookNameLower metadata rest pos
      else
        match pyGet metadata idx with
        | .error e => .error e
        | .ok meta =>
            let metaBookLower := normBook meta.book
            let isSameBook :=
              strContains metaBookLower bookNameLower ||
              strContains bookNameLower metaBookLower
            let adjustedScore := score + (if isSameBook then 1/5 else 0)
            (buildResults bookNameLower metadata rest (pos + 1)).map
              (fun tail =>
                { chunk_idx := meta.chunk_idx, book := meta.book,
                  char_start := meta.char_start, char_end := meta.char_end,
                  text := meta.text, score := adjustedScore,
                  is_same_book := isSameBook, pos := pos } :: tail)

/-- Stable insertion step for descending order by adjusted score: the new
element (earlier in the input) goes before the first element whose score does
not exceed it, so elements with equal score keep their input order — the
behaviour of Python list.sort(key=score, reverse=True), which is stable. -/
def insertScoreDesc (x : EvidenceItem) : List EvidenceItem → List EvidenceItem
  | [] => [x]
  | y :: ys => if y.score ≤ x.score then x :: y :: ys else y :: insertScoreDesc x ys

/-- results.sort(key=lambda x: x["score"], reverse=True)
(retriever_agent.py line 91), as a stable sort. -/
def sortScoreDesc (l : List EvidenceItem) : List EvidenceItem :=
  l.foldr insertScoreDesc []

/-- retrieve_evidence (retriever_agent.py lines 42-92).  The embedding model
and FAISS search are external: hits is the (score, idx) list returned by
index.search for the claim query.  The Python function receives the raw book
name and normalizes it before the loop. -/
def retrieveEvidence (bookName : String) (metadata : List Meta)
    (hits : List (ℚ × Int)) : Except String (List EvidenceItem) :=
  (buildResults (normBook bookName) metadata hits 0).map
    (fun results => (sortScoreDesc results).take FINAL_K)

/-! ## Retriever stage main — src/agents/retriever_agent.py main, lines 95-144 -/

/-- One claim record of claims/claims.jsonl. -/
structure Claim where
  claim_id : String
  book_name : String
  character : String
  claim_text : String
deriving DecidableEq, Repr

/-- The FAISS index at the faiss library boundary: its vector count and, for
each claim position, the (score, idx) list its search returns for that claim
query embedding. -/
structure FaissIndex where
  ntotal : Nat
  hits : Nat → List (ℚ × Int)

/-- The files the retriever stage reads, each present or absent. -/
structure RetrieverInputs where
  claimsFile : Option (List Claim)
  indexFile : Option FaissIndex
  metaFile : Option (List Meta)

/-- How a stage run ends: an early return after a printed ERROR diagnostic, an
uncaught exception, or normal completion with the outputs written. -/
inductive RunOutcome (α : Type) where
  | earlyExit (msg : String)
  | crashed (msg : String)
  | completed (outputs : α)
deriving DecidableEq

/-- The per-claim loop of retriever main (lines 125-141): evidence for claim i
comes from the search hits for claim i; any exception aborts the stage. -/
def processClaims (hits : Nat → List (ℚ × Int)) (metadata : List Meta) :
    List Claim → Nat → Except String (List (String × List EvidenceItem))
  | [], _ => .ok []
  | c :: rest, i =>
      match retrieveEvidence c.book_name metadata (hits i) with
      | .error e => .error e
      | .ok ev =>
          (processClaims hits metadata rest (i + 1)).map
            (fun tail => (c.claim_id, ev) :: tail)

/-- retriever_agent.py main (lines 95-144): existence checks on the claims
file and the index file (each an early return with a diagnostic), then
load_index_and_metadata (lines 34-39: a missing metadata file raises an
uncaught FileNotFoundError; no comparison of index.ntotal with the metadata
length is performed), then the per-claim retrieval loop. -/
def retrieverMain (fs : RetrieverInputs) :
    RunOutcome (List (String × List EvidenceItem)) :=
  match fs.claimsFile with
  | none => .earlyExit "claims/claims.jsonl not found. Run claim_parser.py first."
  | some claims =>
      match fs.indexFile with
      | none => .earlyExit "index/faiss.index not found. Run embedding_agent.py first."
      | some index =>
          match fs.metaFile with
          | none => .crashed "FileNotFoundError: index/meta.pkl"
          | some metadata =>
              match processClaims index.hits metadata claims 0 with
              | .error e => .crashed e
              | .ok outputs => .completed outputs

/-! ## Aggregator — src/agents/results_aggregator.py -/

/-- VERDICT_MAP (results_aggregator.py lines 18-22). -/
def VERDICT_MAP : List (String × Nat) :=
  [("supported", 1), ("contradicted", 0), ("undetermined", 0)]

/-- One row of output/results.csv (results_aggregator.py lines 72-80).  The
id, verdict, confidence and rationale cells carry whatever JSON value the
verdict file held (the rationale is a string only when the stored reasoning
was one). -/
structure Row where
  id : Json
  book_name : String
  character : String
  prediction : Nat
  verdict : Json
  confidence : Json
  rationale : Json

/-- Python len(x) on a parsed JSON value: defined for strings, lists and
dicts; TypeError otherwise (numbers, booleans, None). -/
def pyLen : Json → Except String Nat
  | .str s => .ok s.length
  | .arr elems => .ok elems.length
  | .obj fields => .ok fields.length
  | _ => .error "TypeError: object has no len"

/-- reasoning[:197] + "..." (results_aggregator.py line 70), reached only when
len(reasoning) > 200: succeeds on a string; a list is sliced but cannot be
concatenated with a string, and a dict cannot be sliced — TypeError either
way. -/
def truncateReasoning : Json → Except String Json
  | .str s => .ok (.str (s.take 197 ++ "..."))
  | _ => .error "TypeError: cannot combine sliced value with str"

/-- The loop body of results_aggregator.py main (lines 57-80) for one verdict
file, given the claims dictionary: a missing claim_id or verdict key raises
KeyError, an unhashable verdict value raises TypeError at VERDICT_MAP.get, a
reasoning value without len (number, boolean, None) raises TypeError, and a
long non-string reasoning raises TypeError at the truncation; otherwise the
row is built with prediction = VERDICT_MAP.get(verdict, 0) and the rationale
truncated at 200. -/
def mkRow (claims : List (String × Claim)) (verdict : List (String × Json)) :
    Except String Row :=
  match verdict.lookup "claim_id" with
  | none => .error "KeyError: claim_id"
  | some claimIdVal =>
      let claimData : Option Claim :=
        match claimIdVal with
        | .str s => claims.lookup s
        | _ => none
      match verdict.lookup "verdict" with
      | none => .error "KeyError: verdict"
      | some verdictVal =>
          let predictionE : Except String Nat :=
            match verdictVal with
            | .str s => .ok ((VERDICT_MAP.lookup s).getD 0)
            | .arr _ => .error "TypeError: unhashable type"
            | .obj _ => .error "TypeError: unhashable type"
            | _ => .ok 0
          match predictionE with
          | .error e => .error e
          | .ok prediction =>
              match pyLen ((verdict.lookup "reasoning").getD (.str "")) with
              | .error e => .error e
              | .ok n =>
                  match (if 200 < n then
                      truncateReasoning ((verdict.lookup "reasoning").getD (.str ""))
                    else .ok ((verdict.lookup "reasoning").getD (.str ""))) with
                  | .error e => .error e
                  | .ok rationale =>
                      .ok { id := claimIdVal,
                            book_name := (claimData.map (·.book_name)).getD "",
                            character := (claimData.map (·.character)).getD "",
                            prediction := prediction,
                            verdict := verdictVal,
                            confidence := (verdict.lookup "confidence").getD (.num 0),
                            rationale := rationale }

/-! ## Resolver main loop — src/agents/reasoning_agent.py main, lines 254-297

The resumability/persistence logic together with the per-verdict stats and
progress steps of the loop body, which read backend-controlled verdict fields
and run around the save (stats before it, the progress report after it), so
their exceptions abort the run.  The evidence directory is a list of files
(stem plus the claim_id stored inside the file), the verdicts directory an
association list from file stem to stored JSON.  The rate-limit sleep and the
logger calls themselves carry no data flow.  The local agent main
(reasoning_agent_local.py lines 239-280) has the same skip and persist logic
around callOllama. -/

/-- One file of the evidence directory: its stem (filename without .json) and
the claim_id field of the claim data stored inside it. -/
structure EvidenceFile where
  stem : String
  claim_id : String

/-- Python str.lower, per character; the strings this pipeline lowers are
ASCII, where this agrees with str.lower. -/
def strLower (s : String) : List Char := s.toList.map Char.toLower

/-- The stats update of the loop body (reasoning_agent.py lines 280-283),
executed before the verdict is saved: verdict.get("reasoning", "").lower()
raises AttributeError on a non-string reasoning, and — when the lowered
reasoning mentions neither error nor retries — stats[verdict["verdict"]]
raises KeyError when the verdict key is absent and TypeError when its value
is unhashable (a list or dict). -/
def statsUpdate (verdict : Json) : Except String Unit :=
  match (fieldOf verdict "reasoning").getD (.str "") with
  | .str s =>
      if strContains (strLower s) "error".toList ||
          strContains (strLower s) "retries".toList then
        .ok ()
      else
        match fieldOf verdict "verdict" with
        | none => .error "KeyError: verdict"
        | some (.arr _) => .error "TypeError: unhashable type"
        | some (.obj _) => .error "TypeError: unhashable type"
        | some _ => .ok ()
  | _ => .error "AttributeError: no attribute lower"

/-- The progress report of the loop body (reasoning_agent.py lines 291-293),
executed after the save on every tenth file and on the last one: the message
reads verdict["verdict"] — KeyError when absent — and formats
verdict.get("confidence", 0) with :.2f, which accepts numbers (booleans are
ints in Python) and raises on any other value. -/
def progressUpdate (verdict : Json) : Except String Unit :=
  match fieldOf verdict "verdict" with
  | none => .error "KeyError: verdict"
  | some _ =>
      match (fieldOf verdict "confidence").getD (.num 0) with
      | .num _ => .ok ()
      | .bool _ => .ok ()
      | _ => .error "ValueError: unknown format code f"

/-- Result of one resolver stage run: the claim_ids for which a backend
interaction was started, in order, the verdicts directory after the run, and
the uncaught exception that aborted the loop, when one was raised. -/
structure ResolverRun where
  calls : List String
  store : List (String × Json)
  crash : Option String

/-- The for-loop of reasoning_agent.py main (lines 272-297) over the
remaining evidence files: call the backend, run the stats update (a raise
here aborts before the save), save the verdict to verdicts/{claim_id}.json,
run the progress report when the position calls for it (a raise here aborts
after the save), and continue.  total is len(remaining), i the loop index. -/
def resolverLoop (outcomes : String → Nat → Outcome) (total : Nat) :
    List EvidenceFile → Nat → List String → List (String × Json) → ResolverRun
  | [], _, calls, store => ⟨calls, store, none⟩
  | f :: rest, i, calls, store =>
      match statsUpdate (callClaudeWithRetry f.claim_id (outcomes f.claim_id)).1 with
      | .error e => ⟨calls ++ [f.claim_id], store, some e⟩
      | .ok _ =>
          if (i + 1) % 10 = 0 ∨ i = total - 1 then
            match progressUpdate (callClaudeWithRetry f.claim_id (outcomes f.claim_id)).1 with
            | .error e =>
                ⟨calls ++ [f.claim_id],
                 setKey store f.claim_id (callClaudeWithRetry f.claim_id (outcomes f.claim_id)).1,
                 some e⟩
            | .ok _ =>
                resolverLoop outcomes total rest (i + 1) (calls ++ [f.claim_id])
                  (setKey store f.claim_id (callClaudeWithRetry f.claim_id (outcomes f.claim_id)).1)
          else
            resolverLoop outcomes total rest (i + 1) (calls ++ [f.claim_id])
              (setKey store f.claim_id (callClaudeWithRetry f.claim_id (outcomes f.claim_id)).1)

/-- reasoning_agent.py main, lines 254-297: processed is the set of stems
already present in the verdicts directory; the loop runs over the remaining
files only. -/
def runResolverMain (files : List EvidenceFile) (store : List (String × Json))
    (outcomes : String → Nat → Outcome) : ResolverRun :=
  let processed := store.map Prod.fst
  let remaining := files.filter fun f => !(processed.contains f.stem)
  resolverLoop outcomes remaining.length remaining 0 [] store

/-! ## Statement helpers

Observation functions used only to phrase the verified properties. -/

/-- The string value stored at a key of a JSON object, when there is one. -/
def strField (j : Json) (k : String) : Option String :=
  match fieldOf j k with
  | some (.str s) => some s
  | _ => none

/-- The numeric value stored at a key of a JSON object, when there is one. -/
def numField (j : Json) (k : String) : Option ℚ :=
  match fieldOf j k with
  | some (.num q) => some q
  | _ => none

/-- s contains sub as a contiguous substring. -/
def hasSubstr (s sub : String) : Prop :=
  ∃ a b, s = a ++ sub ++ b

/-- Whether a stage run finished normally. -/
def RunOutcome.isCompleted {α : Type} : RunOutcome α → Bool
  | .completed _ => true
  | _ => false

/-- The claimed ranking between two returned evidence entries: strictly
higher boosted score first; on a boosted-score tie, strictly higher pre-boost
score first; on a full tie, earlier insertion first. -/
def evidenceRel (a b : EvidenceItem) : Prop :=
  b.score < a.score ∨
    (a.score = b.score ∧
      (b.rawScore < a.rawScore ∨ (a.rawScore = b.rawScore ∧ a.pos < b.pos)))

/-- The ordering property claimed for the returned evidence list. -/
def evidenceOrdered (out : List EvidenceItem) : Prop :=
  out.Pairwise evidenceRel

/-! ## Concrete instances used in counterexamples and witnesses -/

/-- A tokenisation of the text abababababab by an encoding with one token per
character (encode = list of characters, decode = concatenation), used to run
chunk_text on a concrete input. -/
def abTokens : List Char := "abababababab".toList

/-- The decode function of the one-token-per-character encoding. -/
def abDecode : List Char → List Char := fun l => l

/-- chunk_text on the text abababababab with chunk_size 4 and overlap 2. -/
def abChunks : List Chunk := chunkText abTokens abDecode abTokens 4 2

/-- A backend behaviour whose first reply is well-formed JSON carrying an
out-of-vocabulary verdict and an out-of-range confidence. -/
def outcomesBanana : Nat → Outcome :=
  fun _ => .response (some (.obj [("verdict", .str "banana"), ("confidence", .num 7)])) ""

/-- A backend behaviour whose first reply is well-formed JSON missing every
optional field. -/
def outcomesBare : Nat → Outcome :=
  fun _ => .response (some (.obj [("verdict", .str "supported")])) ""

/-- Metadata store with three records (books A, A, B). -/
def metaThree : List Meta :=
  [⟨"BookA", 0, 0, 10, "t0"⟩, ⟨"BookA", 1, 5, 15, "t1"⟩, ⟨"BookB", 2, 10, 20, "t2"⟩]

/-- Retriever stage input whose index reports 2 vectors while the metadata
store holds 3 records, with search hits staying inside the metadata range. -/
def mismatchInputs : RetrieverInputs :=
  { claimsFile := some [⟨"7", "BookA", "Hero", "Hero did a thing."⟩],
    indexFile := some ⟨2, fun _ => [(2, 0), (1, 1)]⟩,
    metaFile := some metaThree }

/-! # Theorems -/

/-! ## Dictionary lemmas -/

theorem lookup_setKey_self (l : List (String × Json)) (k : String) (v : Json) :
    (setKey l k v).lookup k = some v := by
  induction l with
  | nil => simp [setKey, List.lookup]
  | cons p rest ih =>
      obtain ⟨k', v'⟩ := p
      by_cases h : k' = k
      · simp [setKey, h, List.lookup]
      · have hfalse : (k == k') = false := beq_eq_false_iff_ne.mpr (fun hc => h hc.symm)
        simp [setKey, if_neg h, List.lookup, hfalse, ih]

theorem lookup_setKey_ne (l : List (String × Json)) (k k' : String) (v : Json)
    (h : k ≠ k') : (setKey l k' v).lookup k = l.lookup k := by
  have hfalse : (k == k') = false := beq_eq_false_iff_ne.mpr h
  induction l with
  | nil => simp [setKey, List.lookup, hfalse]
  | cons p rest ih =>
      obtain ⟨k₀, v₀⟩ := p
      by_cases h₀ : k₀ = k'
      · subst h₀
        simp [setKey, List.lookup, hfalse]
      · simp only [setKey, if_neg h₀, List.lookup]
        cases hbeq : (k == k₀) with
        | true => rfl
        | false => exact ih

theorem lookup_append_singleton_ne (l : List (String × Json)) (k k' : String)
    (v : Json) (h : k ≠ k') : (l ++ [(k', v)]).lookup k = l.lookup k := by
  have hfalse : (k == k') = false := beq_eq_false_iff_ne.mpr h
  induction l with
  | nil => simp [List.lookup, hfalse]
  | cons p rest ih =>
      obtain ⟨k₀, v₀⟩ := p
      simp only [List.cons_append, List.lookup]
      cases hbeq : (k == k₀) with
      | true => rfl
      | false => exact ih

theorem lookup_append_singleton_self (l : List (String × Json)) (k : String)
    (v : Json) (h : l.lookup k = none) : (l ++ [(k, v)]).lookup k = some v := by
  induction l with
  | nil => simp [List.lookup]
  | cons p rest ih =>
      obtain ⟨k₀, v₀⟩ := p
      simp only [List.lookup] at h
      simp only [List.cons_append, List.lookup]
      cases hbeq : (k == k₀) with
      | true => simp [hbeq] at h
      | false =>
          simp only [hbeq] at h
          exact ih h

theorem lookup_setIfMissing_self (l : List (String × Json)) (k : String) (v : Json) :
    (setIfMissing l k v).lookup k = some ((l.lookup k).getD v) := by
  unfold setIfMissing
  cases hk : l.lookup k with
  | some w => simp [hk]
  | none => simp [hk, lookup_append_singleton_self l k v hk]

theorem lookup_setIfMissing_ne (l : List (String × Json)) (k k' : String) (v : Json)
    (h : k ≠ k') : (setIfMissing l k' v).lookup k = l.lookup k := by
  unfold setIfMissing
  cases hk : l.lookup k' with
  | some w => simp [hk]
  | none => simp [hk, lookup_append_singleton_ne l k k' v h]

/-! ## C1 — resolver output validation -/

theorem claimIdOf_callClaudeAux (claimId : String) (outcomes : Nat → Outcome) :
    ∀ (fuel attempt : Nat) (lastErr : String),
      strField (callClaudeAux claimId outcomes fuel attempt lastErr).1 "claim_id" =
        some claimId := by
  intro fuel
  induction fuel with
  | zero =>
      intro attempt lastErr
      rfl
  | succ f ih =>
      intro attempt lastErr
      unfold callClaudeAux
      cases h : outcomes attempt with
      | rateLimit msg => exact ih (attempt + 1) msg
      | connError msg => exact ih (attempt + 1) msg
      | apiError status msg =>
          by_cases hs : (500 ≤ status && status < 600) = true
          · simp only [hs, if_true]
            exact ih (attempt + 1) msg
          · simp only [Bool.not_eq_true] at hs
            simp only [hs, Bool.false_eq_true, if_false]
            rfl
      | response parsed parseErrMsg =>
          cases parsed with
          | none => rfl
          | some j =>
              cases j with
              | obj fields =>
                  simp only [strField, fieldOf]
                  rw [lookup_setKey_self]
              | null => rfl
              | bool b => rfl
              | num q => rfl
              | str s => rfl
              | arr elems => rfl
      | exn msg => rfl

/-- C1 counterexample: on the concrete backend reply
obj (verdict: banana, confidence: 7) — well-formed JSON — the resolver
returns a verdict record whose verdict field is banana, none of the three
allowed values, and whose confidence is 7, outside [0, 1].  This refutes the
claim that the output verdict is always one of the three values with
confidence in [0, 1]. -/
theorem resolver_passes_through_invalid_fields :
    strField (callClaudeWithRetry "claim-1" outcomesBanana).1 "verdict" = some "banana" ∧
    "banana" ≠ "supported" ∧ "banana" ≠ "contradicted" ∧ "banana" ≠ "undetermined" ∧
    numField (callClaudeWithRetry "claim-1" outcomesBanana).1 "confidence" = some 7 ∧
    ¬ ((7 : ℚ) ≤ 1) := by
  refine ⟨rfl, by decide, by decide, by decide, rfl, by decide⟩

/-- C1 amended: for every backend behaviour the resolver's returned record
carries the requesting claim_id — forced onto parsed objects, synthesized
into error verdicts — even though verdict and confidence of parsed objects
pass through unvalidated. -/
theorem resolver_forces_claim_id (claimId : String) (outcomes : Nat → Outcome) :
    strField (callClaudeWithRetry claimId outcomes).1 "claim_id" = some claimId :=
  claimIdOf_callClaudeAux claimId outcomes MAX_RETRIES 0 "None"

/-! ## C7 — parse failure ends the attempt immediately -/

theorem callClaudeAux_parse_fail (claimId : String) (outcomes : Nat → Outcome)
    (msg : String) :
    ∀ (k fuel attempt : Nat) (lastErr : String), k < fuel →
      (∀ i, i < k → (outcomes (attempt + i)).isTransient = true) →
      outcomes (attempt + k) = .response none msg →
      callClaudeAux claimId outcomes fuel attempt lastErr =
        (createErrorVerdict claimId ("Failed to parse model response: " ++ msg),
         attempt + k + 1) := by
  intro k
  induction k with
  | zero =>
      intro fuel attempt lastErr hk _htr hout
      rw [Nat.add_zero] at hout
      match fuel, hk with
      | f + 1, _ =>
        unfold callClaudeAux
        rw [hout]
  | succ k ih =>
      intro fuel attempt lastErr hk htr hout
      match fuel, hk with
      | f + 1, hk =>
        have hk' : k < f := Nat.lt_of_succ_lt_succ hk
        have h0 : (outcomes attempt).isTransient = true := by
          have := htr 0 (Nat.succ_pos k)
          rwa [Nat.add_zero] at this
        have htr' : ∀ i, i < k → (outcomes (attempt + 1 + i)).isTransient = true := by
          intro i hi
          have := htr (i + 1) (Nat.succ_lt_succ hi)
          rwa [show attempt + (i + 1) = attempt + 1 + i by omega] at this
        have hout' : outcomes (attempt + 1 + k) = .response none msg := by
          rwa [show attempt + (k + 1) = attempt + 1 + k by omega] at hout
        have harith : attempt + 1 + k + 1 = attempt + (k + 1) + 1 := by omega
        cases hoc : outcomes attempt with
        | rateLimit m =>
            unfold callClaudeAux
            rw [hoc]
            show callClaudeAux claimId outcomes f (attempt + 1) m = _
            rw [ih f (attempt + 1) m hk' htr' hout', harith]
        | connError m =>
            unfold callClaudeAux
            rw [hoc]
            show callClaudeAux claimId outcomes f (attempt + 1) m = _
            rw [ih f (attempt + 1) m hk' htr' hout', harith]
        | apiError status m =>
            rw [hoc] at h0
            simp only [Outcome.isTransient] at h0
            unfold callClaudeAux
            rw [hoc]
            simp only [h0]
            show callClaudeAux claimId outcomes f (attempt + 1) m = _
            rw [ih f (attempt + 1) m hk' htr' hout', harith]
        | response parsed pm =>
            rw [hoc] at h0
            simp [Outcome.isTransient] at h0
        | exn m =>
            rw [hoc] at h0
            simp [Outcome.isTransient] at h0

/-- C7: when attempt k of the backend interaction returns a reply that fails
JSON parsing (every earlier attempt having failed transiently), the resolver
returns the error verdict at once — exactly k + 1 backend calls, so the
parse failure itself is never retried — with verdict undetermined, confidence
0.0, empty span lists and a reasoning string containing parse. -/
theorem parse_failure_not_retried (claimId msg : String) (outcomes : Nat → Outcome)
    (k : Nat) (hk : k < MAX_RETRIES)
    (htr : ∀ i, i < k → (outcomes i).isTransient = true)
    (hout : outcomes k = .response none msg) :
    (callClaudeWithRetry claimId outcomes).2 = k + 1 ∧
    strField (callClaudeWithRetry claimId outcomes).1 "verdict" = some "undetermined" ∧
    numField (callClaudeWithRetry claimId outcomes).1 "confidence" = some 0 ∧
    fieldOf (callClaudeWithRetry claimId outcomes).1 "supporting_spans" = some (.arr []) ∧
    fieldOf (callClaudeWithRetry claimId outcomes).1 "contradicting_spans" = some (.arr []) ∧
    ∃ r, strField (callClaudeWithRetry claimId outcomes).1 "reasoning" = some r ∧
      hasSubstr r "parse" := by
  have htr0 : ∀ i, i < k → (outcomes (0 + i)).isTransient = true := by
    intro i hi
    rw [Nat.zero_add]
    exact htr i hi
  have hout0 : outcomes (0 + k) = .response none msg := by
    rw [Nat.zero_add]
    exact hout
  have hmain := callClaudeAux_parse_fail claimId outcomes msg k MAX_RETRIES 0 "None"
      hk htr0 hout0
  unfold callClaudeWithRetry
  rw [hmain]
  refine ⟨by rw [Nat.zero_add], rfl, rfl, rfl, rfl,
    ⟨"Failed to parse model response: " ++ msg, rfl,
     ⟨"Failed to ", " model response: " ++ msg, ?_⟩⟩⟩
  rw [← String.append_assoc]
  rfl

/-- C7 witness: one transient failure followed by an unparseable reply, at a
concrete backend behaviour. -/
theorem parse_failure_not_retried_witness :
    (1 < MAX_RETRIES ∧
     (∀ i, i < 1 → ((fun j => if j = 0 then Outcome.rateLimit "429" else
        Outcome.response none "boom") i).isTransient = true) ∧
     (fun j => if j = 0 then Outcome.rateLimit "429" else
        Outcome.response none "boom") 1 = .response none "boom") ∧
    (callClaudeWithRetry "w7" (fun j => if j = 0 then Outcome.rateLimit "429" else
        Outcome.response none "boom")).2 = 1 + 1 := by
  refine ⟨⟨by decide, ?_, rfl⟩, ?_⟩
  · intro i hi
    interval_cases i
    rfl
  · exact (parse_failure_not_retried "w7" "boom" _ 1 (by decide)
      (fun i hi => by interval_cases i; rfl) rfl).1

/-! ## C8 — backfilling of missing optional fields -/

/-- C8 counterexample: the hosted resolver, given parseable JSON missing every
optional field, returns the parsed object with only claim_id added — no
supporting_spans, contradicting_spans, confidence or reasoning is backfilled. -/
theorem hosted_resolver_no_backfill :
    callClaudeWithRetry "claim-8" outcomesBare =
      (Json.obj [("verdict", .str "supported"), ("claim_id", .str "claim-8")], 1) ∧
    fieldOf (callClaudeWithRetry "claim-8" outcomesBare).1 "confidence" = none ∧
    fieldOf (callClaudeWithRetry "claim-8" outcomesBare).1 "supporting_spans" = none ∧
    fieldOf (callClaudeWithRetry "claim-8" outcomesBare).1 "contradicting_spans" = none ∧
    fieldOf (callClaudeWithRetry "claim-8" outcomesBare).1 "reasoning" = none :=
  ⟨rfl, rfl, rfl, rfl, rfl⟩

/-- C8 amended: the local resolver accepts any parseable JSON object reply,
forces claim_id, and backfills each of the four optional fields with its
defined default when missing, keeping the stored value when present. -/
theorem local_resolver_backfills (claimId pm : String)
    (fields : List (String × Json)) :
    fieldOf (callOllama claimId (.httpResponse 200 (some (.obj fields)) pm))
        "claim_id" = some (.str claimId) ∧
    fieldOf (callOllama claimId (.httpResponse 200 (some (.obj fields)) pm))
        "supporting_spans" = some ((fields.lookup "supporting_spans").getD (.arr [])) ∧
    fieldOf (callOllama claimId (.httpResponse 200 (some (.obj fields)) pm))
        "contradicting_spans" = some ((fields.lookup "contradicting_spans").getD (.arr [])) ∧
    fieldOf (callOllama claimId (.httpResponse 200 (some (.obj fields)) pm))
        "confidence" = some ((fields.lookup "confidence").getD (.num (1/2))) ∧
    fieldOf (callOllama claimId (.httpResponse 200 (some (.obj fields)) pm))
        "reasoning" = some ((fields.lookup "reasoning").getD (.str "Local model inference")) := by
  refine ⟨?_, ?_, ?_, ?_, ?_⟩
  · show (setIfMissing (setIfMissing (setIfMissing (setIfMissing
        (setKey fields "claim_id" (.str claimId))
        "supporting_spans" (.arr [])) "contradicting_spans" (.arr []))
        "confidence" (.num (1/2))) "reasoning" (.str "Local model inference")).lookup
        "claim_id" = some (.str claimId)
    rw [lookup_setIfMissing_ne _ _ _ _ (by decide),
      lookup_setIfMissing_ne _ _ _ _ (by decide),
      lookup_setIfMissing_ne _ _ _ _ (by decide),
      lookup_setIfMissing_ne _ _ _ _ (by decide),
      lookup_setKey_self]
  · show (setIfMissing (setIfMissing (setIfMissing (setIfMissing
        (setKey fields "claim_id" (.str claimId))
        "supporting_spans" (.arr [])) "contradicting_spans" (.arr []))
        "confidence" (.num (1/2))) "reasoning" (.str "Local model inference")).lookup
        "supporting_spans" = some ((fields.lookup "supporting_spans").getD (.arr []))
    rw [lookup_setIfMissing_ne _ _ _ _ (by decide),
      lookup_setIfMissing_ne _ _ _ _ (by decide),
      lookup_setIfMissing_ne _ _ _ _ (by decide),
      lookup_setIfMissing_self,
      lookup_setKey_ne _ _ _ _ (by decide)]
  · show (setIfMissing (setIfMissing (setIfMissing (setIfMissing
        (setKey fields "claim_id" (.str claimId))
        "supporting_spans" (.arr [])) "contradicting_spans" (.arr []))
        "confidence" (.num (1/2))) "reasoning" (.str "Local model inference")).lookup
        "contradicting_spans" = some ((fields.lookup "contradicting_spans").getD (.arr []))
    rw [lookup_setIfMissing_ne _ _ _ _ (by decide),
      lookup_setIfMissing_ne _ _ _ _ (by decide),
      lookup_setIfMissing_self,
      lookup_setIfMissing_ne _ _ _ _ (by decide),
      lookup_setKey_ne _ _ _ _ (by decide)]
  · show (setIfMissing (setIfMissing (setIfMissing (setIfMissing
        (setKey fields "claim_id" (.str claimId))
        "supporting_spans" (.arr [])) "contradicting_spans" (.arr []))
        "confidence" (.num (1/2))) "reasoning" (.str "Local model inference")).lookup
        "confidence" = some ((fields.lookup "confidence").getD (.num (1/2)))
    rw [lookup_setIfMissing_ne _ _ _ _ (by decide),
      lookup_setIfMissing_self,
      lookup_setIfMissing_ne _ _ _ _ (by decide),
      lookup_setIfMissing_ne _ _ _ _ (by decide),
      lookup_setKey_ne _ _ _ _ (by decide)]
  · show (setIfMissing (setIfMissing (setIfMissing (setIfMissing
        (setKey fields "claim_id" (.str claimId))
        "supporting_spans" (.arr [])) "contradicting_spans" (.arr []))
        "confidence" (.num (1/2))) "reasoning" (.str "Local model inference")).lookup
        "reasoning" = some ((fields.lookup "reasoning").getD (.str "Local model inference"))
    rw [lookup_setIfMissing_self,
      lookup_setIfMissing_ne _ _ _ _ (by decide),
      lookup_setIfMissing_ne _ _ _ _ (by decide),
      lookup_setIfMissing_ne _ _ _ _ (by decide),
      lookup_setKey_ne _ _ _ _ (by decide)]

/-! ## C4 and C10 — resumability of the resolver stage -/

theorem mem_keys_setKey_of_mem (l : List (String × Json)) (k a : String) (v : Json)
    (h : a ∈ l.map Prod.fst) : a ∈ (setKey l k v).map Prod.fst := by
  induction l with
  | nil => simp at h
  | cons p rest ih =>
      obtain ⟨k₀, v₀⟩ := p
      by_cases h₀ : k₀ = k
      · subst h₀
        simp only [List.map_cons] at h
        simpa [setKey] using h
      · simp only [List.map_cons, List.mem_cons] at h
        rcases h with h | h
        · simp [setKey, if_neg h₀, h]
        · simp [setKey, if_neg h₀, ih h]

theorem mem_keys_setKey_self (l : List (String × Json)) (k : String) (v : Json) :
    k ∈ (setKey l k v).map Prod.fst := by
  induction l with
  | nil => simp [setKey]
  | cons p rest ih =>
      obtain ⟨k₀, v₀⟩ := p
      by_cases h₀ : k₀ = k
      · simp [setKey, h₀]
      · simp [setKey, if_neg h₀, ih]

theorem keys_subset_foldl_setKey (g : EvidenceFile → Json) :
    ∀ (rem : List EvidenceFile) (s : List (String × Json)) (a : String),
      a ∈ s.map Prod.fst →
      a ∈ (List.foldl (fun t f => setKey t f.claim_id (g f)) s rem).map Prod.fst := by
  intro rem
  induction rem with
  | nil => intro s a h; simpa using h
  | cons f rest ih =>
      intro s a h
      exact ih _ a (mem_keys_setKey_of_mem s f.claim_id a (g f) h)

theorem claimId_mem_keys_foldl_setKey (g : EvidenceFile → Json) :
    ∀ (rem : List EvidenceFile) (s : List (String × Json)) (f : EvidenceFile),
      f ∈ rem →
      f.claim_id ∈ (List.foldl (fun t f => setKey t f.claim_id (g f)) s rem).map Prod.fst := by
  intro rem
  induction rem with
  | nil => intro s f h; simp at h
  | cons f₀ rest ih =>
      intro s f h
      rcases List.mem_cons.mp h with h | h
      · subst h
        exact keys_subset_foldl_setKey g rest _ f.claim_id
          (mem_keys_setKey_self s f.claim_id (g f))
      · exact ih _ f h

theorem lookup_foldl_setKey_of_not_mem (g : EvidenceFile → Json) :
    ∀ (rem : List EvidenceFile) (s : List (String × Json)) (c : String),
      c ∉ rem.map EvidenceFile.claim_id →
      (List.foldl (fun t f => setKey t f.claim_id (g f)) s rem).lookup c = s.lookup c := by
  intro rem
  induction rem with
  | nil => intro s c _; rfl
  | cons f rest ih =>
      intro s c hc
      simp only [List.map_cons, List.mem_cons, not_or] at hc
      rw [List.foldl_cons, ih _ c hc.2, lookup_setKey_ne _ _ _ _ hc.1]

theorem lookup_foldl_setKey_of_mem (g : EvidenceFile → Json) :
    ∀ (rem : List EvidenceFile) (s : List (String × Json)) (f : EvidenceFile),
      f ∈ rem → (rem.map EvidenceFile.claim_id).Nodup →
      (List.foldl (fun t f => setKey t f.claim_id (g f)) s rem).lookup f.claim_id =
        some (g f) := by
  intro rem
  induction rem with
  | nil => intro s f h; simp at h
  | cons f₀ rest ih =>
      intro s f h hnd
      simp only [List.map_cons, List.nodup_cons] at hnd
      rcases List.mem_cons.mp h with h | h
      · subst h
        rw [List.foldl_cons,
          lookup_foldl_setKey_of_not_mem g rest _ f.claim_id hnd.1,
          lookup_setKey_self]
      · exact ih _ f h hnd.2

theorem resolverLoop_ok (outcomes : String → Nat → Outcome) (total : Nat) :
    ∀ (rem : List EvidenceFile) (i : Nat) (calls : List String)
      (store : List (String × Json)),
      (∀ g ∈ rem,
        statsUpdate (callClaudeWithRetry g.claim_id (outcomes g.claim_id)).1 = .ok () ∧
        progressUpdate (callClaudeWithRetry g.claim_id (outcomes g.claim_id)).1 = .ok ()) →
      resolverLoop outcomes total rem i calls store =
        ⟨calls ++ rem.map (fun g => g.claim_id),
         List.foldl
           (fun t g => setKey t g.claim_id (callClaudeWithRetry g.claim_id (outcomes g.claim_id)).1)
           store rem,
         none⟩ := by
  intro rem
  induction rem with
  | nil =>
      intro i calls store _
      simp [resolverLoop]
  | cons f rest ih =>
      intro i calls store hok
      have hf := hok f (List.mem_cons_self _ _)
      have htail := fun g hg => hok g (List.mem_cons_of_mem _ hg)
      unfold resolverLoop
      rw [hf.1]
      dsimp only
      by_cases hcond : (i + 1) % 10 = 0 ∨ i = total - 1
      · rw [if_pos hcond, hf.2]
        dsimp only
        rw [ih (i + 1) (calls ++ [f.claim_id]) _ htail]
        simp [List.append_assoc]
      · rw [if_neg hcond]
        rw [ih (i + 1) (calls ++ [f.claim_id]) _ htail]
        simp [List.append_assoc]

theorem runResolverMain_all_persisted (files : List EvidenceFile)
    (store : List (String × Json)) (outcomes : String → Nat → Outcome)
    (h : ∀ f ∈ files, f.stem ∈ store.map Prod.fst) :
    runResolverMain files store outcomes = ⟨[], store, none⟩ := by
  have hfil : files.filter (fun f => !((store.map Prod.fst).contains f.stem)) = [] := by
    rw [List.filter_eq_nil_iff]
    intro f hf
    simp [h f hf]
  show resolverLoop outcomes
      (files.filter (fun f => !((store.map Prod.fst).contains f.stem))).length
      (files.filter (fun f => !((store.map Prod.fst).contains f.stem))) 0 [] store =
    ⟨[], store, none⟩
  rw [hfil]
  rfl

/-- C4: re-running the resolver over evidence files whose stems all already
have a persisted verdict issues zero backend calls, leaves the verdict store
exactly as it was, and raises nothing. -/
theorem resolver_idempotent_when_all_persisted (files : List EvidenceFile)
    (store : List (String × Json)) (outcomes : String → Nat → Outcome)
    (h : ∀ f ∈ files, f.stem ∈ store.map Prod.fst) :
    (runResolverMain files store outcomes).calls = [] ∧
    (runResolverMain files store outcomes).store = store ∧
    (runResolverMain files store outcomes).crash = none := by
  rw [runResolverMain_all_persisted files store outcomes h]
  exact ⟨rfl, rfl, rfl⟩

/-- C4 witness: one evidence file whose verdict is already stored. -/
theorem resolver_idempotent_when_all_persisted_witness :
    (∀ f ∈ [EvidenceFile.mk "11" "11"],
        f.stem ∈ [("11", createErrorVerdict "11" "old")].map Prod.fst) ∧
    (runResolverMain [EvidenceFile.mk "11" "11"]
        [("11", createErrorVerdict "11" "old")] (fun _ _ => .rateLimit "r")).calls = [] ∧
    (runResolverMain [EvidenceFile.mk "11" "11"]
        [("11", createErrorVerdict "11" "old")] (fun _ _ => .rateLimit "r")).store =
      [("11", createErrorVerdict "11" "old")] ∧
    (runResolverMain [EvidenceFile.mk "11" "11"]
        [("11", createErrorVerdict "11" "old")] (fun _ _ => .rateLimit "r")).crash = none := by
  have h : ∀ f ∈ [EvidenceFile.mk "11" "11"],
      f.stem ∈ [("11", createErrorVerdict "11" "old")].map Prod.fst := by
    intro f hf
    simp only [List.mem_singleton] at hf
    subst hf
    simp
  exact ⟨h, resolver_idempotent_when_all_persisted _ _ _ h⟩

/-- C10: an error verdict (here from a parse failure) is persisted in the same
per-claim store as any other verdict, and a subsequent run of the resolver
over the same evidence set skips every claim — in particular the degraded
one — issuing zero backend calls and leaving the stored error verdict in
place.  The run must reach the save: the hypothesis hok states that no
verdict of the batch trips the stats or progress steps of the loop body
(error verdicts themselves never do). -/
theorem error_verdict_persisted_and_final (files : List EvidenceFile)
    (store : List (String × Json)) (outcomes : String → Nat → Outcome)
    (f : EvidenceFile) (msg : String)
    (hstems : ∀ g ∈ files, g.stem = g.claim_id)
    (hnd : (files.map EvidenceFile.claim_id).Nodup)
    (hf : f ∈ files)
    (hnew : f.stem ∉ store.map Prod.fst)
    (hout : outcomes f.claim_id 0 = .response none msg)
    (hok : ∀ g ∈ files,
      statsUpdate (callClaudeWithRetry g.claim_id (outcomes g.claim_id)).1 = .ok () ∧
      progressUpdate (callClaudeWithRetry g.claim_id (outcomes g.claim_id)).1 = .ok ()) :
    (runResolverMain files store outcomes).store.lookup f.claim_id =
      some (createErrorVerdict f.claim_id ("Failed to parse model response: " ++ msg)) ∧
    runResolverMain files (runResolverMain files store outcomes).store outcomes =
      ⟨[], (runResolverMain files store outcomes).store, none⟩ := by
  have hremok : ∀ g ∈ files.filter (fun x => !((store.map Prod.fst).contains x.stem)),
      statsUpdate (callClaudeWithRetry g.claim_id (outcomes g.claim_id)).1 = .ok () ∧
      progressUpdate (callClaudeWithRetry g.claim_id (outcomes g.claim_id)).1 = .ok () :=
    fun g hg => hok g (List.mem_of_mem_filter hg)
  have hstore1 : (runResolverMain files store outcomes).store =
      List.foldl
        (fun t g => setKey t g.claim_id (callClaudeWithRetry g.claim_id (outcomes g.claim_id)).1)
        store (files.filter (fun g => !((store.map Prod.fst).contains g.stem))) := by
    show (resolverLoop outcomes
        (files.filter (fun g => !((store.map Prod.fst).contains g.stem))).length
        (files.filter (fun g => !((store.map Prod.fst).contains g.stem))) 0 [] store).store = _
    rw [resolverLoop_ok outcomes
      (files.filter (fun g => !((store.map Prod.fst).contains g.stem))).length
      (files.filter (fun g => !((store.map Prod.fst).contains g.stem))) 0 [] store hremok]
  have hremnd : ((files.filter
      (fun g => !((store.map Prod.fst).contains g.stem))).map EvidenceFile.claim_id).Nodup :=
    List.Nodup.sublist (List.Sublist.map _ (List.filter_sublist files)) hnd
  have hfrem : f ∈ files.filter (fun g => !((store.map Prod.fst).contains g.stem)) := by
    rw [List.mem_filter]
    refine ⟨hf, ?_⟩
    simp [hnew]
  have hcall : (callClaudeWithRetry f.claim_id (outcomes f.claim_id)).1 =
      createErrorVerdict f.claim_id ("Failed to parse model response: " ++ msg) := by
    have := callClaudeAux_parse_fail f.claim_id (outcomes f.claim_id) msg 0 MAX_RETRIES
      0 "None" (by decide) (fun i hi => absurd hi (Nat.not_lt_zero i)) hout
    unfold callClaudeWithRetry
    rw [this]
  constructor
  · rw [hstore1, lookup_foldl_setKey_of_mem _ _ store f hfrem hremnd, hcall]
  · apply runResolverMain_all_persisted
    intro g hg
    rw [hstems g hg, hstore1]
    by_cases hgs : g.stem ∈ store.map Prod.fst
    · rw [← hstems g hg]
      exact keys_subset_foldl_setKey _ _ store g.stem (by rw [hstems g hg] at hgs ⊢; exact hgs)
    · have hgrem : g ∈ files.filter (fun x => !((store.map Prod.fst).contains x.stem)) := by
        rw [List.mem_filter]
        exact ⟨hg, by simp [hgs]⟩
      exact claimId_mem_keys_foldl_setKey _ _ store g hgrem

/-- C10 witness: a fresh claim degraded by a parse failure at a concrete
store and backend behaviour; its error verdict passes the stats and progress
steps. -/
theorem error_verdict_persisted_and_final_witness :
    ((∀ g ∈ [EvidenceFile.mk "21" "21"], g.stem = g.claim_id) ∧
     ([EvidenceFile.mk "21" "21"].map EvidenceFile.claim_id).Nodup ∧
     EvidenceFile.mk "21" "21" ∈ [EvidenceFile.mk "21" "21"] ∧
     (EvidenceFile.mk "21" "21").stem ∉ ([] : List (String × Json)).map Prod.fst ∧
     (fun (_ : String) (_ : Nat) => Outcome.response none "bad json") "21" 0 =
       .response none "bad json" ∧
     (∀ g ∈ [EvidenceFile.mk "21" "21"],
        statsUpdate (callClaudeWithRetry g.claim_id
          ((fun (_ : String) (_ : Nat) => Outcome.response none "bad json") g.claim_id)).1 =
          .ok () ∧
        progressUpdate (callClaudeWithRetry g.claim_id
          ((fun (_ : String) (_ : Nat) => Outcome.response none "bad json") g.claim_id)).1 =
          .ok ())) ∧
    (runResolverMain [EvidenceFile.mk "21" "21"] []
        (fun _ _ => Outcome.response none "bad json")).store.lookup "21" =
      some (createErrorVerdict "21" ("Failed to parse model response: " ++ "bad json")) := by
  have h1 : ∀ g ∈ [EvidenceFile.mk "21" "21"], g.stem = g.claim_id := by
    intro g hg
    simp only [List.mem_singleton] at hg
    subst hg
    rfl
  have h4 : (EvidenceFile.mk "21" "21").stem ∉ ([] : List (String × Json)).map Prod.fst := by
    simp
  have h6 : ∀ g ∈ [EvidenceFile.mk "21" "21"],
      statsUpdate (callClaudeWithRetry g.claim_id
        ((fun (_ : String) (_ : Nat) => Outcome.response none "bad json") g.claim_id)).1 =
        .ok () ∧
      progressUpdate (callClaudeWithRetry g.claim_id
        ((fun (_ : String) (_ : Nat) => Outcome.response none "bad json") g.claim_id)).1 =
        .ok () := by
    intro g hg
    simp only [List.mem_singleton] at hg
    subst hg
    exact ⟨rfl, rfl⟩
  exact ⟨⟨h1, by simp, by simp, h4, rfl, h6⟩,
    (error_verdict_persisted_and_final [EvidenceFile.mk "21" "21"] []
      (fun _ _ => Outcome.response none "bad json") (EvidenceFile.mk "21" "21")
      "bad json" h1 (by simp) (by simp) h4 rfl h6).1⟩

/-! ## C9 — aggregator verdict-to-prediction mapping -/

theorem mkRow_prediction (claims : List (String × Claim))
    (verdict : List (String × Json)) (row : Row) (s : String)
    (h : mkRow claims verdict = .ok row)
    (hv : verdict.lookup "verdict" = some (.str s)) :
    row.prediction = (VERDICT_MAP.lookup s).getD 0 := by
  unfold mkRow at h
  cases hcid : verdict.lookup "claim_id" with
  | none =>
      rw [hcid] at h
      exact Except.noConfusion h
  | some cidv =>
      rw [hcid, hv] at h
      dsimp only at h
      cases hlen : pyLen ((verdict.lookup "reasoning").getD (.str "")) with
      | error e =>
          rw [hlen] at h
          exact Except.noConfusion h
      | ok n =>
          rw [hlen] at h
          dsimp only at h
          cases htr : (if 200 < n then
              truncateReasoning ((verdict.lookup "reasoning").getD (.str ""))
            else .ok ((verdict.lookup "reasoning").getD (.str ""))) with
          | error e =>
              rw [htr] at h
              exact Except.noConfusion h
          | ok rationale =>
              rw [htr] at h
              dsimp only at h
              cases h
              rfl

/-- C9: for every row the aggregator builds from a stored verdict record, the
binary prediction is 1 exactly on verdict supported and 0 on contradicted and
undetermined. -/
theorem aggregator_prediction_mapping (claims : List (String × Claim))
    (verdict : List (String × Json)) (row : Row)
    (h : mkRow claims verdict = .ok row) :
    (verdict.lookup "verdict" = some (.str "supported") → row.prediction = 1) ∧
    (verdict.lookup "verdict" = some (.str "contradicted") → row.prediction = 0) ∧
    (verdict.lookup "verdict" = some (.str "undetermined") → row.prediction = 0) := by
  refine ⟨fun hv => ?_, fun hv => ?_, fun hv => ?_⟩ <;>
    rw [mkRow_prediction claims verdict row _ h hv] <;> rfl

/-- C9 witness: a supported verdict record whose reasoning is a JSON array —
a shape len() accepts and the aggregator turns into a row — produces
prediction 1. -/
theorem aggregator_prediction_mapping_witness :
    mkRow [] [("claim_id", .str "1"), ("verdict", .str "supported"),
        ("reasoning", .arr [])] =
      .ok { id := .str "1", book_name := "", character := "", prediction := 1,
            verdict := .str "supported", confidence := .num 0, rationale := .arr [] } ∧
    ({ id := .str "1", book_name := "", character := "", prediction := 1,
       verdict := .str "supported", confidence := .num 0,
       rationale := .arr [] } : Row).prediction = 1 := by
  refine ⟨rfl, ?_⟩
  exact (aggregator_prediction_mapping []
    [("claim_id", .str "1"), ("verdict", .str "supported"), ("reasoning", .arr [])]
    { id := .str "1", book_name := "", character := "", prediction := 1,
      verdict := .str "supported", confidence := .num 0, rationale := .arr [] }
    rfl).1 rfl

/-! ## C2 — char_start recovery is search-based and drifts -/

/-- C2: on the 12-character text abababababab with a one-token-per-character
encoding, chunk_size 4 and overlap 2, the code assigns char_start 0 to every
chunk — the substring search finds the repeated 4-character prefix at
position 0 — whereas decoding the cumulative token prefix of chunk 1 (its
first token has index 2) has length 2.  So char_start is recovered by text
search, not by cumulative-prefix decoding, and the two disagree here. -/
theorem segmenter_char_start_search_drift :
    abChunks.map Chunk.char_start = [0, 0, 0, 0, 0] ∧
    abChunks.map Chunk.chunk_idx = [0, 1, 2, 3, 4] ∧
    ((abDecode (abTokens.take 2)).length : Int) = 2 ∧
    (0 : Int) ≠ 2 := by
  refine ⟨by decide, by decide, by decide, by decide⟩

/-! ## C3 — segment ranges do not always cover the text -/

/-- C3: on the same concrete input the produced segments all span
char range 0 to 4, so character position 5 of the 12-character
non-empty text lies in no segment range — the union of the half-open ranges
does not cover the text. -/
theorem segmenter_ranges_not_covering :
    (abDecode abTokens).length = 12 ∧
    (5 : Nat) < 12 ∧
    ∀ c ∈ abChunks, ¬(c.char_start ≤ (5 : Int) ∧ (5 : Int) < c.char_end) := by
  refine ⟨by decide, by decide, by decide⟩

/-! ## C5 — deterministic tie-breaking in evidence ranking -/

theorem pyGet_ok {α : Type} (l : List α) (i : Int) (h0 : 0 ≤ i)
    (h1 : i < (l.length : Int)) : ∃ a, pyGet l i = .ok a := by
  unfold pyGet
  rw [if_neg (not_lt.mpr h0)]
  have hlt : i.toNat < l.length := by omega
  rw [if_neg (by omega : ¬ i < 0), List.get?_eq_get hlt]
  exact ⟨l.get ⟨i.toNat, hlt⟩, rfl⟩

theorem buildResults_ok (bn : List Char) (md : List Meta) :
    ∀ (hits : List (ℚ × Int)) (pos : Nat),
      (∀ p ∈ hits, p.2 = -1 ∨ (0 ≤ p.2 ∧ p.2 < (md.length : Int))) →
      ∃ rs, buildResults bn md hits pos = .ok rs := by
  intro hits
  induction hits with
  | nil => exact fun pos _ => ⟨[], rfl⟩
  | cons p rest ih =>
      obtain ⟨q, idx⟩ := p
      intro pos hvalid
      unfold buildResults
      by_cases hidx : idx = -1
      · rw [if_pos hidx]
        exact ih pos (fun p hp => hvalid p (List.mem_cons_of_mem _ hp))
      · rw [if_neg hidx]
        have hrange : 0 ≤ idx ∧ idx < (md.length : Int) := by
          rcases hvalid (q, idx) (List.mem_cons_self _ _) with h | h
          · exact absurd h hidx
          · exact h
        obtain ⟨meta, hmeta⟩ := pyGet_ok md idx hrange.1 hrange.2
        rw [hmeta]
        obtain ⟨rs, hrs⟩ := ih (pos + 1) (fun p hp => hvalid p (List.mem_cons_of_mem _ hp))
        rw [hrs]
        exact ⟨_, rfl⟩

theorem buildResults_strong (bn : List Char) (md : List Meta) :
    ∀ (hits : List (ℚ × Int)) (pos : Nat) (rs : List EvidenceItem),
      buildResults bn md hits pos = .ok rs →
      (∀ e ∈ rs, pos ≤ e.pos) ∧
      (∀ e ∈ rs, ∃ p ∈ hits, e.rawScore = p.1) ∧
      (hits.Pairwise (fun a b => b.1 ≤ a.1) →
        rs.Pairwise (fun a b => b.rawScore ≤ a.rawScore ∧ a.pos < b.pos)) := by
  intro hits
  induction hits with
  | nil =>
      intro pos rs h
      have : rs = [] := by
        simpa [buildResults] using h.symm
      subst this
      exact ⟨by simp, by simp, fun _ => List.Pairwise.nil⟩
  | cons p rest ih =>
      obtain ⟨q, idx⟩ := p
      intro pos rs h
      unfold buildResults at h
      by_cases hidx : idx = -1
      · rw [if_pos hidx] at h
        obtain ⟨hpos, hmem, hpw⟩ := ih pos rs h
        refine ⟨hpos, ?_, fun hs => hpw (List.Pairwise.sublist (List.sublist_cons_self _ _) hs)⟩
        intro e he
        obtain ⟨p, hp, hq⟩ := hmem e he
        exact ⟨p, List.mem_cons_of_mem _ hp, hq⟩
      · rw [if_neg hidx] at h
        cases hg : pyGet md idx with
        | error e =>
            rw [hg] at h
            exact Except.noConfusion h
        | ok meta =>
            rw [hg] at h
            dsimp only at h
            cases hb : buildResults bn md rest (pos + 1) with
            | error e =>
                rw [hb] at h
                exact Except.noConfusion h
            | ok rs₀ =>
                rw [hb] at h
                dsimp only [Except.map] at h
                obtain ⟨hpos, hmem, hpw⟩ := ih (pos + 1) rs₀ hb
                cases h
                have hraw : ∀ b : Bool,
                    ({ chunk_idx := meta.chunk_idx, book := meta.book,
                       char_start := meta.char_start, char_end := meta.char_end,
                       text := meta.text,
                       score := q + (if b then (1 : ℚ)/5 else 0),
                       is_same_book := b, pos := pos } : EvidenceItem).rawScore = q := by
                  intro b
                  unfold EvidenceItem.rawScore
                  exact add_sub_cancel_right q _
                refine ⟨?_, ?_, ?_⟩
                · intro e he
                  rcases List.mem_cons.mp he with he | he
                  · subst he
                    exact Nat.le_refl pos
                  · exact Nat.le_of_succ_le (hpos e he)
                · intro e he
                  rcases List.mem_cons.mp he with he | he
                  · subst he
                    exact ⟨(q, idx), List.mem_cons_self _ _, hraw _⟩
                  · obtain ⟨p, hp, hq⟩ := hmem e he
                    exact ⟨p, List.mem_cons_of_mem _ hp, hq⟩
                · intro hs
                  rw [List.pairwise_cons] at hs
                  refine List.Pairwise.cons ?_ (hpw hs.2)
                  intro e he
                  obtain ⟨p, hp, hq⟩ := hmem e he
                  constructor
                  · rw [hq, hraw]
                    exact hs.1 p hp
                  · exact Nat.lt_of_lt_of_le (Nat.lt_succ_self pos) (hpos e he)

theorem evidenceRel_score_le {a b : EvidenceItem} (h : evidenceRel a b) :
    b.score ≤ a.score := by
  rcases h with h | ⟨h, _⟩
  · exact le_of_lt h
  · exact le_of_eq h.symm

theorem mem_insertScoreDesc (x : EvidenceItem) :
    ∀ (l : List EvidenceItem) (z : EvidenceItem),
      z ∈ insertScoreDesc x l → z = x ∨ z ∈ l := by
  intro l
  induction l with
  | nil =>
      intro z hz
      simpa [insertScoreDesc] using hz
  | cons y ys ih =>
      intro z hz
      unfold insertScoreDesc at hz
      by_cases hc : y.score ≤ x.score
      · rw [if_pos hc] at hz
        rcases List.mem_cons.mp hz with hz | hz
        · exact Or.inl hz
        · exact Or.inr hz
      · rw [if_neg hc] at hz
        rcases List.mem_cons.mp hz with hz | hz
        · exact Or.inr (hz ▸ List.mem_cons_self _ _)
        · rcases ih z hz with hz | hz
          · exact Or.inl hz
          · exact Or.inr (List.mem_cons_of_mem _ hz)

theorem pairwise_insertScoreDesc (x : EvidenceItem) :
    ∀ (l : List EvidenceItem), l.Pairwise evidenceRel →
      (∀ y ∈ l, y.rawScore ≤ x.rawScore ∧ x.pos < y.pos) →
      (insertScoreDesc x l).Pairwise evidenceRel := by
  intro l
  induction l with
  | nil => exact fun _ _ => List.pairwise_singleton _ _
  | cons y ys ih =>
      intro hpw hx
      rw [List.pairwise_cons] at hpw
      unfold insertScoreDesc
      by_cases hc : y.score ≤ x.score
      · rw [if_pos hc]
        rw [List.pairwise_cons]
        constructor
        · intro z hz
          have hzle : z.score ≤ x.score := by
            rcases List.mem_cons.mp hz with hz | hz
            · exact hz ▸ hc
            · exact le_trans (evidenceRel_score_le (hpw.1 z hz)) hc
          rcases lt_or_eq_of_le hzle with hlt | heq
          · exact Or.inl hlt
          · have hxz := hx z (by
              rcases List.mem_cons.mp hz with hz | hz
              · exact hz ▸ List.mem_cons_self _ _
              · exact List.mem_cons_of_mem _ hz)
            refine Or.inr ⟨heq.symm, ?_⟩
            rcases lt_or_eq_of_le hxz.1 with hlt | heq'
            · exact Or.inl hlt
            · exact Or.inr ⟨heq'.symm, hxz.2⟩
        · exact List.Pairwise.cons hpw.1 hpw.2
      · rw [if_neg hc]
        rw [List.pairwise_cons]
        constructor
        · intro z hz
          rcases mem_insertScoreDesc x ys z hz with hz | hz
          · subst hz
            exact Or.inl (lt_of_not_le hc)
          · exact hpw.1 z hz
        · exact ih hpw.2 (fun z hz => hx z (List.mem_cons_of_mem _ hz))

theorem pairwise_sortScoreDesc :
    ∀ (l : List EvidenceItem),
      l.Pairwise (fun a b => b.rawScore ≤ a.rawScore ∧ a.pos < b.pos) →
      (sortScoreDesc l).Pairwise evidenceRel ∧
      (∀ z ∈ sortScoreDesc l, z ∈ l) := by
  intro l
  induction l with
  | nil => exact fun _ => ⟨List.Pairwise.nil, by simp [sortScoreDesc]⟩
  | cons x xs ih =>
      intro hpw
      rw [List.pairwise_cons] at hpw
      obtain ⟨hsorted, hsub⟩ := ih hpw.2
      have hstep : sortScoreDesc (x :: xs) = insertScoreDesc x (sortScoreDesc xs) := rfl
      rw [hstep]
      constructor
      · exact pairwise_insertScoreDesc x (sortScoreDesc xs) hsorted
          (fun y hy => hpw.1 y (hsub y hy))
      · intro z hz
        rcases mem_insertScoreDesc x (sortScoreDesc xs) z hz with hz | hz
        · exact hz ▸ List.mem_cons_self _ _
        · exact List.mem_cons_of_mem _ (hsub z hz)

/-- C5: when the search hits arrive sorted by similarity descending (the FAISS
search contract), the evidence list the retriever returns is ordered by
boosted score descending, with boosted-score ties ranked by pre-boost score
descending and remaining ties by insertion order — a deterministic order. -/
theorem evidence_tie_breaking (bookName : String) (metadata : List Meta)
    (hits : List (ℚ × Int))
    (hsorted : hits.Pairwise (fun a b => b.1 ≤ a.1))
    (hvalid : ∀ p ∈ hits, p.2 = -1 ∨ (0 ≤ p.2 ∧ p.2 < (metadata.length : Int))) :
    ∃ out, retrieveEvidence bookName metadata hits = .ok out ∧ evidenceOrdered out := by
  obtain ⟨rs, hrs⟩ := buildResults_ok (normBook bookName) metadata hits 0 hvalid
  obtain ⟨_, _, hpw⟩ := buildResults_strong (normBook bookName) metadata hits 0 rs hrs
  refine ⟨(sortScoreDesc rs).take FINAL_K, ?_, ?_⟩
  · unfold retrieveEvidence
    rw [hrs]
    rfl
  · exact List.Pairwise.sublist (List.take_sublist _ _)
      (pairwise_sortScoreDesc rs (hpw hsorted)).1

/-- C5 witness: four search hits (one a -1 sentinel) with sorted scores. -/
theorem evidence_tie_breaking_witness :
    ([((2 : ℚ), (0 : Int)), (1, 1), (1, -1), (1, 2)].Pairwise
        (fun a b => b.1 ≤ a.1) ∧
     (∀ p ∈ [((2 : ℚ), (0 : Int)), (1, 1), (1, -1), (1, 2)],
        p.2 = -1 ∨ (0 ≤ p.2 ∧ p.2 < ((metaThree.length : Int))))) ∧
    ∃ out, retrieveEvidence "Book A" metaThree
        [((2 : ℚ), (0 : Int)), (1, 1), (1, -1), (1, 2)] = .ok out ∧
      evidenceOrdered out := by
  have h1 : [((2 : ℚ), (0 : Int)), (1, 1), (1, -1), (1, 2)].Pairwise
      (fun a b => b.1 ≤ a.1) := by decide
  have h2 : ∀ p ∈ [((2 : ℚ), (0 : Int)), (1, 1), (1, -1), (1, 2)],
      p.2 = -1 ∨ (0 ≤ p.2 ∧ p.2 < ((metaThree.length : Int))) := by decide
  exact ⟨⟨h1, h2⟩, evidence_tie_breaking "Book A" metaThree _ h1 h2⟩

/-! ## C6 — index/metadata integrity on load -/

/-- C6 counterexample: a retrieval run whose index reports 2 vectors while the
metadata store holds 3 records completes normally, producing evidence for the
claim — no integrity error is raised before (or during) claim processing, so
a count mismatch is not detected as a fatal error. -/
theorem mismatched_counts_not_detected :
    mismatchInputs.indexFile.map FaissIndex.ntotal = some 2 ∧
    mismatchInputs.metaFile.map List.length = some 3 ∧
    (2 : Nat) ≠ 3 ∧
    (retrieverMain mismatchInputs).isCompleted = true :=
  ⟨rfl, by decide, by decide, rfl⟩

theorem processClaims_ok (hits : Nat → List (ℚ × Int)) (md : List Meta)
    (hvalid : ∀ n, ∀ p ∈ hits n, p.2 = -1 ∨ (0 ≤ p.2 ∧ p.2 < (md.length : Int))) :
    ∀ (cs : List Claim) (i : Nat),
      ∃ outs, processClaims hits md cs i = .ok outs ∧ outs.length = cs.length := by
  intro cs
  induction cs with
  | nil => exact fun i => ⟨[], rfl, rfl⟩
  | cons c rest ih =>
      intro i
      obtain ⟨rs, hrs⟩ := buildResults_ok (normBook c.book_name) md (hits i) 0 (hvalid i)
      obtain ⟨outs, houts, hlen⟩ := ih (i + 1)
      refine ⟨(c.claim_id, (sortScoreDesc rs).take FINAL_K) :: outs, ?_, by simp [hlen]⟩
      unfold processClaims
      have hev : retrieveEvidence c.book_name md (hits i) =
          .ok ((sortScoreDesc rs).take FINAL_K) := by
        unfold retrieveEvidence
        rw [hrs]
        rfl
      rw [hev, houts]
      rfl

/-- C6 amended: missing input files are the only load-time failures — the
claims or index file absent gives an early diagnostic exit, the metadata file
absent an uncaught exception — but a vector-count mismatch between index and
metadata is never checked: the stage proceeds over every claim whenever the
search hits stay inside the metadata range, completing with one output per
claim. -/
theorem retrieval_proceeds_despite_mismatch (claims : List Claim)
    (index : FaissIndex) (metadata : List Meta)
    (hmismatch : index.ntotal ≠ metadata.length)
    (hvalid : ∀ n, ∀ p ∈ index.hits n,
        p.2 = -1 ∨ (0 ≤ p.2 ∧ p.2 < (metadata.length : Int))) :
    ∃ outs, retrieverMain ⟨some claims, some index, some metadata⟩ = .completed outs ∧
      outs.length = claims.length := by
  obtain ⟨outs, houts, hlen⟩ := processClaims_ok index.hits metadata hvalid claims 0
  refine ⟨outs, ?_, hlen⟩
  show (match processClaims index.hits metadata claims 0 with
    | Except.error e => RunOutcome.crashed e
    | Except.ok outputs => RunOutcome.completed outputs) = RunOutcome.completed outs
  rw [houts]

/-- C6 amended witness: a 5-vector index over a 1-record metadata store. -/
theorem retrieval_proceeds_despite_mismatch_witness :
    ((5 : Nat) ≠ 1 ∧
     (∀ n, ∀ p ∈ (FaissIndex.mk 5 (fun _ => [((2 : ℚ), (0 : Int))])).hits n,
        p.2 = -1 ∨ (0 ≤ p.2 ∧ p.2 < (([⟨"B", 0, 0, 4, "t"⟩] : List Meta).length : Int)))) ∧
    ∃ outs,
      retrieverMain ⟨some [⟨"3", "B", "X", "c"⟩],
        some (FaissIndex.mk 5 (fun _ => [((2 : ℚ), (0 : Int))])),
        some [⟨"B", 0, 0, 4, "t"⟩]⟩ = .completed outs ∧
      outs.length = ([⟨"3", "B", "X", "c"⟩] : List Claim).length := by
  have h2 : ∀ n, ∀ p ∈ (FaissIndex.mk 5 (fun _ => [((2 : ℚ), (0 : Int))])).hits n,
      p.2 = -1 ∨ (0 ≤ p.2 ∧ p.2 < (([⟨"B", 0, 0, 4, "t"⟩] : List Meta).length : Int)) := by
    intro n
    show ∀ p ∈ [((2 : ℚ), (0 : Int))],
      p.2 = -1 ∨ (0 ≤ p.2 ∧ p.2 < (([⟨"B", 0, 0, 4, "t"⟩] : List Meta).length : Int))
    decide
  exact ⟨⟨by decide, h2⟩,
    retrieval_proceeds_despite_mismatch [⟨"3", "B", "X", "c"⟩] _ _ (by decide) h2⟩

end StrawHats
